import Mathlib

/-!
Verification development for the Turkov cloud/local climate-device client
(`custom_components/turkov/api.py`).

The Python source is shallowly embedded: JSON values become the inductive
`JVal` (Python floats are idealised as rationals), Python truthiness and
`==` become `pyTruthy` and `pyEq`, the per-attribute converter table
`ATTRIBUTE_KEY_MAPPING` becomes a static list of tagged converter entries,
and every effectful operation becomes a pure function over an explicit
environment describing the transport outcomes.
-/

namespace Turkov

/-- A JSON value as produced by `response.json()` / `json.loads`.
Python `int` and `float` are kept apart (as in Python); floats are
idealised as exact rationals. Objects are association lists in insertion
order, mirroring Python dicts (which keep insertion order and never hold a
duplicate key). -/
inductive JVal where
  | null
  | bool (b : Bool)
  | int (n : ℤ)
  | float (q : ℚ)
  | str (s : String)
  | arr (items : List JVal)
  | obj (fields : List (String × JVal))

mutual

/-- Python `==` on JSON-shaped values: numeric types (incl. `bool`) compare
by numeric value, containers compare elementwise. Dicts here compare
fieldwise in order; the payload dicts of this client are only ever compared
against values decoded from the same fixed payload, where the key order
coincides. -/
def pyEq : JVal → JVal → Bool
  | .null, .null => true
  | .bool a, .bool b => a == b
  | .bool a, .int n => (if a then (1 : ℤ) else 0) == n
  | .bool a, .float q => (if a then (1 : ℚ) else 0) == q
  | .int n, .bool b => n == (if b then (1 : ℤ) else 0)
  | .int a, .int b => a == b
  | .int a, .float q => (a : ℚ) == q
  | .float q, .bool b => q == (if b then (1 : ℚ) else 0)
  | .float q, .int n => q == (n : ℚ)
  | .float a, .float b => a == b
  | .str a, .str b => a == b
  | .arr a, .arr b => pyEqList a b
  | .obj a, .obj b => pyEqFields a b
  | _, _ => false

def pyEqList : List JVal → List JVal → Bool
  | [], [] => true
  | a :: as, b :: bs => pyEq a b && pyEqList as bs
  | _, _ => false

def pyEqFields : List (String × JVal) → List (String × JVal) → Bool
  | [], [] => true
  | (k, v) :: as, (k2, w) :: bs => k == k2 && pyEq v w && pyEqFields as bs
  | _, _ => false

end

/-- Python truthiness (`bool(x)` / `if x:`). -/
def pyTruthy : JVal → Bool
  | .null => false
  | .bool b => b
  | .int n => n != 0
  | .float q => q != 0
  | .str s => !s.isEmpty
  | .arr items => !items.isEmpty
  | .obj fields => !fields.isEmpty

/-- Python `x is None`. -/
def isNull : JVal → Bool
  | .null => true
  | _ => false

/-- Decimal digits of the fractional part of a nonnegative rational,
bounded by fuel. -/
def fracDigitsAux : Nat → ℚ → String
  | 0, _ => ""
  | n + 1, r =>
    if r = 0 then ""
    else
      let r10 := r * 10
      let d := ⌊r10⌋
      toString d ++ fracDigitsAux n (r10 - (d : ℚ))

def floatReprNN (q : ℚ) : String :=
  let ip := ⌊q⌋
  let fr := fracDigitsAux 30 (q - (ip : ℚ))
  toString ip ++ "." ++ (if fr = "" then "0" else fr)

/-- Rendering of a Python float by `str` (e.g. `21.5`, `3.0`). -/
def floatRepr (q : ℚ) : String :=
  if q < 0 then "-" ++ floatReprNN (-q) else floatReprNN q

def joinComma : List String → String
  | [] => ""
  | [s] => s
  | s :: rest => s ++ ", " ++ joinComma rest

mutual

/-- Python `repr` of a JSON-shaped value (strings are quoted). -/
def pyRepr : JVal → String
  | .null => "None"
  | .bool true => "True"
  | .bool false => "False"
  | .int n => toString n
  | .float q => floatRepr q
  | .str s => "'" ++ s ++ "'"
  | .arr items => "[" ++ joinComma (pyReprList items) ++ "]"
  | .obj fields => "\x7b" ++ joinComma (pyReprFields fields) ++ "\x7d"

def pyReprList : List JVal → List String
  | [] => []
  | v :: rest => pyRepr v :: pyReprList rest

def pyReprFields : List (String × JVal) → List String
  | [] => []
  | (k, v) :: rest => ("'" ++ k ++ "': " ++ pyRepr v) :: pyReprFields rest

end

/-- Python `str(x)`: identity on strings, `repr` otherwise. -/
def pyStr : JVal → String
  | .str s => s
  | v => pyRepr v

def digitVal? (c : Char) : Option Nat :=
  if c.isDigit then some (c.toNat - 48) else none

def takeDigits : List Char → (List Nat × List Char)
  | [] => ([], [])
  | c :: rest =>
    match digitVal? c with
    | some d =>
      let (ds, r) := takeDigits rest
      (d :: ds, r)
    | none => ([], c :: rest)

def natOfDigits (ds : List Nat) : Nat := ds.foldl (fun a d => a * 10 + d) 0

def parseSign : List Char → (Bool × List Char)
  | '-' :: rest => (true, rest)
  | '+' :: rest => (false, rest)
  | cs => (false, cs)

/-- Core of Python `float(s)` for plain decimal literals. -/
def parseFloatCore (cs : List Char) : Option ℚ :=
  let (neg, cs1) := parseSign cs
  let (ip, cs2) := takeDigits cs1
  match cs2 with
  | '.' :: rest =>
    let (fp, rest2) := takeDigits rest
    if rest2.isEmpty && (ip.length + fp.length > 0) then
      let mag : ℚ := (natOfDigits ip : ℚ) + (natOfDigits fp : ℚ) / ((10 : ℚ) ^ fp.length)
      some (if neg then -mag else mag)
    else none
  | [] =>
    if ip.isEmpty then none
    else
      let mag : ℚ := (natOfDigits ip : ℚ)
      some (if neg then -mag else mag)
  | _ => none

def parseFloat? (s : String) : Option ℚ := parseFloatCore s.trim.data

/-- Core of Python `int(s)`: sign and digits only (`int("3.5")` fails). -/
def parseIntCore (cs : List Char) : Option ℤ :=
  let (neg, cs1) := parseSign cs
  let (ds, rest) := takeDigits cs1
  if ds.isEmpty || !rest.isEmpty then none
  else some (if neg then -(natOfDigits ds : ℤ) else (natOfDigits ds : ℤ))

def parseInt? (s : String) : Option ℤ := parseIntCore s.trim.data

/-- Python exception classes relevant to value conversion. -/
inductive PyErr where
  | typeError
  | valueError
deriving DecidableEq

/-- Truncation toward zero, as Python `int(float)`. -/
def truncQ (q : ℚ) : ℤ := if 0 ≤ q then ⌊q⌋ else -⌊-q⌋

/-- Python `float(x)`. -/
def pyFloat : JVal → Except PyErr ℚ
  | .bool b => .ok (if b then 1 else 0)
  | .int n => .ok (n : ℚ)
  | .float q => .ok q
  | .str s =>
    match parseFloat? s with
    | some q => .ok q
    | none => .error .valueError
  | _ => .error .typeError

/-- Python `int(x)`. -/
def pyInt : JVal → Except PyErr ℤ
  | .bool b => .ok (if b then 1 else 0)
  | .int n => .ok n
  | .float q => .ok (truncQ q)
  | .str s =>
    match parseInt? s with
    | some n => .ok n
    | none => .error .valueError
  | _ => .error .typeError

/-- Converter tags of `ATTRIBUTE_KEY_MAPPING`: `ident` is the `None` entry
(pass the raw value through), `skip` is the `False` sentinel excluding the
attribute from generic decoding, `floatLess` is `_float_less`
(`float(x) / 10`). -/
inductive Conv where
  | ident
  | toStr
  | toFloat
  | toInt
  | toBool
  | floatLess
  | skip
deriving DecidableEq

def applyConv : Conv → JVal → Except PyErr JVal
  | .ident, v => .ok v
  | .toStr, v => .ok (.str (pyStr v))
  | .toFloat, v => (pyFloat v).map .float
  | .toInt, v => (pyInt v).map .int
  | .toBool, v => .ok (.bool (pyTruthy v))
  | .floatLess, v => (pyFloat v).map (fun q => .float (q / 10))
  | .skip, v => .ok v

/-- One entry of the static attribute table:
(attribute name, wire key, converter). -/
abbrev MapEntry := String × String × Conv

/-- `TurkovDevice.ATTRIBUTE_KEY_MAPPING`, in source order. -/
def ATTRIBUTE_KEY_MAPPING : List MapEntry :=
  [ ("is_on", "on", .ident),
    ("fan_speed", "fan_speed", .toStr),
    ("fan_mode", "fan_mode", .ident),
    ("target_temperature", "temp_sp", .toFloat),
    ("selected_mode", "mode", .toStr),
    ("setup", "setup", .toStr),
    ("filter_life_percentage", "filter", .toFloat),
    ("outdoor_temperature", "out_temp", .floatLess),
    ("indoor_temperature", "in_temp", .floatLess),
    ("image_url", "image", .skip),
    ("indoor_humidity", "in_humid", .floatLess),
    ("exhaust_temperature", "exh_temp", .floatLess),
    ("air_pressure", "air_pres", .toFloat),
    ("co2_level", "CO2_level", .toFloat),
    ("current_temperature", "temp_curr", .floatLess),
    ("current_humidity", "hum_curr", .floatLess),
    ("target_humidity", "hum_sp", .toInt),
    ("fireplace", "firep", .toBool),
    ("humidifier", "humib", .toBool),
    ("first_relay", "relay_1", .toBool),
    ("first_relay_name", "relay_1_name", .toStr),
    ("second_relay", "relay_2", .toBool),
    ("second_relay_name", "relay_2_name", .toStr) ]

/-- The device's dynamic attribute namespace (`getattr`/`setattr` by
attribute name); all attributes start as `None`. -/
abbrev AttrState := String → JVal

def setAttr (st : AttrState) (a : String) (v : JVal) : AttrState :=
  fun x => if x = a then v else st x

/-- A decoded state payload (a Python dict from the wire). -/
abbrev Payload := List (String × JVal)

/-- The value the generic pass would compare/assign for one entry:
`none` when the wire key is absent and `mark_as_none_if_not_present` is
unset, or when conversion fails. -/
def candidate (markNone : Bool) (d : Payload) : MapEntry → Option JVal
  | (_, key, conv) =>
    match d.lookup key with
    | none => if markNone then some .null else none
    | some raw => (applyConv conv raw).toOption

/-- One iteration of the generic attribute loop of
`TurkovDevice.update_state`. -/
def genericStep (markNone : Bool) (d : Payload) (st : AttrState) (ch : Finset String) :
    MapEntry → Except PyErr (AttrState × Finset String)
  | (attr, key, conv) =>
    if conv = .skip then .ok (st, ch)
    else
      match d.lookup key with
      | none =>
        if markNone then
          if pyEq .null (st attr) then .ok (st, ch)
          else .ok (setAttr st attr .null, insert attr ch)
        else .ok (st, ch)
      | some raw =>
        match applyConv conv raw with
        | .error e => .error e
        | .ok v =>
          if pyEq v (st attr) then .ok (st, ch)
          else .ok (setAttr st attr v, insert attr ch)

/-- The generic attribute loop over (a suffix of) the attribute table. -/
def genericPass (markNone : Bool) (d : Payload) :
    List MapEntry → AttrState → Finset String → Except PyErr (AttrState × Finset String)
  | [], st, ch => .ok (st, ch)
  | e :: es, st, ch =>
    match genericStep markNone d st ch e with
    | .error err => .error err
    | .ok (st2, ch2) => genericPass markNone d es st2 ch2

def BASE_URL : String := "https://turkovwifi.ru"

def IMAGES_BY_DEVICE_TYPE : List (String × String) :=
  [ ("Zenit", "/images/zenit.jpg"),
    ("Capsule", "/images/capsule.jpg"),
    ("i-Vent", "/images/ivent.jpg") ]

/-- The image-URL resolution of `update_state` (custom upload URL from the
payload's `image` field, else the device type's default image, else the
raw/`None` value). -/
def computeImage (typ id? : Option String) (d : Payload) : JVal :=
  let raw : JVal :=
    match d.lookup "image" with
    | some v => if pyTruthy v then v else .null
    | none => .null
  let idTruthy : Bool :=
    match id? with
    | some i => !i.isEmpty
    | none => false
  if pyTruthy raw && idTruthy then
    .str (BASE_URL ++ "/upload/" ++ (match id? with | some i => i | none => "") ++ "_"
      ++ pyStr raw ++ ".jpg")
  else
    match typ with
    | some t =>
      match IMAGES_BY_DEVICE_TYPE.lookup t with
      | some path => .str (if path.startsWith "/" then BASE_URL ++ path else path)
      | none => raw
    | none => raw

/-- The assignment condition of the image-URL step: under
`mark_as_none_if_not_present` it is `image_url is None and self.image_url
is not None`, otherwise `self.image_url != image_url`. -/
def imageFire (markNone : Bool) (stored img : JVal) : Bool :=
  if markNone then isNull img && !isNull stored
  else !pyEq stored img

/-- The pure reconciliation core of `TurkovDevice.update_state` applied to
an already-decoded payload: the generic pass followed by the image-URL
step, returning the new attribute state and the change set. -/
def reconcile (markNone : Bool) (typ id? : Option String) (d : Payload) (st : AttrState) :
    Except PyErr (AttrState × Finset String) :=
  match genericPass markNone d ATTRIBUTE_KEY_MAPPING st ∅ with
  | .error e => .error e
  | .ok (st1, ch1) =>
    if imageFire markNone (st1 "image_url") (computeImage typ id? d) then
      .ok (setAttr st1 "image_url" (computeImage typ id? d), insert "image_url" ch1)
    else
      .ok (st1, ch1)

/-- `TurkovDevice.update_state` after the fetch: a `none` fetch result
(cache hit / 304) short-circuits with an empty change set. -/
def update_state (markNone : Bool) (typ id? : Option String) (fetched : Option Payload)
    (st : AttrState) : Except PyErr (AttrState × Finset String) :=
  match fetched with
  | none => .ok (st, ∅)
  | some d => reconcile markNone typ id? d st

/-! ## Account session: token state and the authentication exchange -/

/-- The four token fields of a `TurkovAPI` session. Tokens hold whatever
JSON value the server returned (`null` models Python `None`); expiries are
absent until an exchange stores them. -/
structure TokState where
  accessToken : JVal
  accessTokenExpiresAt : Option ℤ
  refreshToken : JVal
  refreshTokenExpiresAt : Option ℤ

/-- `TurkovAPI.access_token_needs_update` at time `now`
(`utcnow().timestamp()`). -/
def access_token_needs_update (st : TokState) (now : ℚ) : Bool :=
  if !pyTruthy st.accessToken then true
  else
    match st.accessTokenExpiresAt with
    | none => true
    | some e => decide ((e : ℚ) - 60 < now)

/-- `TurkovAPI.refresh_token_needs_update` at time `now`. -/
def refresh_token_needs_update (st : TokState) (now : ℚ) : Bool :=
  if !pyTruthy st.refreshToken then true
  else
    match st.refreshTokenExpiresAt with
    | none => true
    | some e => decide ((e : ℚ) - 60 < now)

/-- Field extraction of `_process_auth_request`: subscripts and `int()`
conversions in source order; any failure is an authentication error. -/
def extractAuthFields (data : JVal) : Except String (JVal × ℤ × JVal × ℤ) :=
  match data with
  | .obj fields =>
    match fields.lookup "accessToken" with
    | none => .error "Server did not provide auth data"
    | some aTok =>
      match fields.lookup "accessTokenExpiresAt" with
      | none => .error "Server did not provide auth data"
      | some aExpV =>
        match pyInt aExpV with
        | .error _ => .error "Server provided bad data"
        | .ok aExp =>
          match fields.lookup "refreshToken" with
          | none => .error "Server did not provide auth data"
          | some rTok =>
            match fields.lookup "refreshTokenExpiresAt" with
            | none => .error "Server did not provide auth data"
            | some rExpV =>
              match pyInt rExpV with
              | .error _ => .error "Server provided bad data"
              | .ok rExp => .ok (aTok, aExp, rTok, rExp)
  | _ => .error "Server provided bad data"

/-- `TurkovAPI._process_auth_request`: the response is either a transport
failure or a decoded JSON body. Returns the (possibly updated) token state
and the raised authentication error, if any; token fields are written only
on the success path, after all validation. -/
def process_auth_request (now : ℚ) (st : TokState) (resp : Except Unit JVal) :
    TokState × Option String :=
  match resp with
  | .error _ => (st, some "Server returned bad response")
  | .ok data =>
    match extractAuthFields data with
    | .error e => (st, some e)
    | .ok (aTok, aExp, rTok, rExp) =>
      if !(pyTruthy aTok || pyTruthy rTok) then
        (st, some "Server provided empty auth data")
      else if (aExp : ℚ) < now then
        (st, some "Server provided expired access token")
      else if (rExp : ℚ) < now then
        (st, some "Server provided expired refresh token")
      else
        ({ accessToken := aTok, accessTokenExpiresAt := some aExp,
           refreshToken := rTok, refreshTokenExpiresAt := some rExp }, none)

/-! ## The `_handle_preliminary_auth` decorator -/

/-- Exception classes observable around the decorator: an explicit
`TurkovAPIAuthenticationError`, the two HTTP authorization exceptions, or
anything else (uncaught). -/
inductive PyExc where
  | authError
  | httpUnauthorized
  | httpForbidden
  | other
deriving DecidableEq

/-- The classes caught by the decorator's `except` clause. -/
def isAuthClass : PyExc → Bool
  | .authError => true
  | .httpUnauthorized => true
  | .httpForbidden => true
  | .other => false

/-- Outcome of one invocation of the wrapped coroutine. -/
inductive CallRes where
  | ok
  | exc (e : PyExc)
deriving DecidableEq

/-- Environment of one decorated call: the session flags read by the
decorator, whether `authenticate()` succeeds, and the outcomes of the
first and (potential) second invocation of the wrapped coroutine. -/
structure AuthCtx where
  handle_authentication : Bool
  needs_update : Bool
  auth_ok : Bool
  fn1 : CallRes
  fn2 : CallRes
deriving DecidableEq

/-- Trace of one decorated call: its result plus how many times
`authenticate()` and the wrapped coroutine ran. -/
structure RunLog where
  result : Except PyExc Unit
  authCalls : Nat
  fnCalls : Nat

/-- `TurkovAPI._handle_preliminary_auth`: optional preliminary
re-authentication, one invocation, and on an authorization-class failure
with no prior attempt one `authenticate()` plus exactly one retry whose
outcome propagates as-is. -/
def handle_preliminary_auth (c : AuthCtx) : RunLog :=
  let attempted := c.handle_authentication && c.needs_update
  if attempted && !c.auth_ok then
    ⟨.error .authError, 1, 0⟩
  else
    let preAuth : Nat := if attempted then 1 else 0
    match c.fn1 with
    | .ok => ⟨.ok (), preAuth, 1⟩
    | .exc e =>
      if isAuthClass e then
        if attempted || !c.handle_authentication then
          ⟨.error .authError, preAuth, 1⟩
        else if !c.auth_ok then
          ⟨.error .authError, preAuth + 1, 1⟩
        else
          match c.fn2 with
          | .ok => ⟨.ok (), preAuth + 1, 2⟩
          | .exc e2 => ⟨.error e2, preAuth + 1, 2⟩
      else ⟨.error e, preAuth, 1⟩

/-! ## Device registry synchronisation (`update_user_data`) -/

/-- One entry of the response's `devices` list
(`DeviceDataResponseDict`): the outer `Option` is key presence, the inner
one the (possibly `None`) value. -/
structure DeviceEntry where
  id_ : Option String
  deviceType : Option (Option String)
  deviceName : Option (Option String)
  serialNumber : Option (Option String)
  pin : Option (Option String)
  firmVer : Option (Option String)
deriving DecidableEq

/-- The metadata fields of a `TurkovDevice` touched by the list sync. -/
structure TurkovDeviceModel where
  id : String
  type : Option String
  name : Option String
  serial_number : Option String
  pin : Option String
  firmware_version : Option String
deriving DecidableEq

/-- `TurkovDevice(id_, self)`: a freshly created device. -/
def newTurkovDevice (i : String) : TurkovDeviceModel :=
  ⟨i, none, none, none, none, none⟩

/-- The per-entry field assignments (`if "deviceType" in device_data: ...`
etc.), in source order; absent keys leave the field untouched. -/
def applyDeviceFields (e : DeviceEntry) (d : TurkovDeviceModel) : TurkovDeviceModel :=
  let d := match e.deviceType with | some v => { d with type := v } | none => d
  let d := match e.deviceName with | some v => { d with name := v } | none => d
  let d := match e.serialNumber with | some v => { d with serial_number := v } | none => d
  let d := match e.pin with | some v => { d with pin := v } | none => d
  match e.firmVer with | some v => { d with firmware_version := v } | none => d

/-- The `self._devices` dict, in insertion order. -/
abbrev Registry := List (String × TurkovDeviceModel)

def updateDevice (reg : Registry) (i : String) (d : TurkovDeviceModel) : Registry :=
  reg.map (fun p => if p.1 = i then (i, d) else p)

def removeDevice (reg : Registry) (i : String) : Registry :=
  reg.filter (fun p => p.1 != i)

/-- One iteration of the device-entry loop of `update_user_data`: skip on
a missing or empty id, otherwise update the existing device (discarding it
from the leftover set) or create a new one. -/
def processDeviceEntry (acc : Registry × List String) (e : DeviceEntry) :
    Registry × List String :=
  match e.id_ with
  | none => acc
  | some i =>
    if i = "" then acc
    else
      match acc.1.lookup i with
      | some dev => (updateDevice acc.1 i (applyDeviceFields e dev), acc.2.erase i)
      | none => (acc.1 ++ [(i, applyDeviceFields e (newTurkovDevice i))], acc.2)

/-- The device-list portion of `TurkovAPI.update_user_data` on a
successful non-304 response: process every entry, then discard the
leftover devices absent from the response. -/
def update_user_data_devices (entries : List DeviceEntry) (reg : Registry) : Registry :=
  let res := entries.foldl processDeviceEntry (reg, reg.map Prod.fst)
  res.2.foldl removeDevice res.1

/-- The non-empty ids reported in a response, in order. -/
def goodIds (entries : List DeviceEntry) : List String :=
  entries.filterMap (fun e =>
    match e.id_ with
    | some i => if i = "" then none else some i
    | none => none)

/-! ## Local/cloud dispatch (`TurkovDevice.get_state`) -/

/-- Failure classes around a state fetch: the three exception classes the
local attempt catches, plus uncaught classes and the `TurkovAPIError`
raised when no transport is available. -/
inductive FetchErr where
  | clientError
  | timeoutError
  | jsonDecodeError
  | cancelledError
  | otherError
  | turkovNoMethod
deriving DecidableEq

/-- The tuple caught around `get_state_local()`:
`(aiohttp.ClientError, TimeoutError, JSONDecodeError)`. -/
def isLocalCaught : FetchErr → Bool
  | .clientError => true
  | .timeoutError => true
  | .jsonDecodeError => true
  | _ => false

/-- Environment of one `get_state` call: the device's local host, whether
it holds a `TurkovAPI` reference, and the outcomes the two transports
would produce if attempted. -/
structure GetStateCtx where
  host : Option String
  hasApi : Bool
  localResult : Except FetchErr Payload
  cloudResult : Except FetchErr (Option Payload)

/-- Trace of one `get_state` call. -/
structure GetStateLog where
  result : Except FetchErr (Option Payload)
  localAttempts : Nat
  cloudAttempts : Nat

/-- Python truthiness of `self.host`. -/
def hostTruthy : Option String → Bool
  | none => false
  | some s => !s.isEmpty

/-- `TurkovDevice.get_state`: local first when a host is set; on a caught
local failure fall through to the cloud branch, which runs only when the
device holds an API reference; with neither, raise `TurkovAPIError`. -/
def get_state (c : GetStateCtx) : GetStateLog :=
  if hostTruthy c.host then
    match c.localResult with
    | .ok d => ⟨.ok (some d), 1, 0⟩
    | .error e =>
      if isLocalCaught e then
        if !c.hasApi then ⟨.error e, 1, 0⟩
        else
          match c.cloudResult with
          | .ok d => ⟨.ok d, 1, 1⟩
          | .error e2 => ⟨.error e2, 1, 1⟩
      else ⟨.error e, 1, 0⟩
  else if c.hasApi then
    match c.cloudResult with
    | .ok d => ⟨.ok d, 0, 1⟩
    | .error e => ⟨.error e, 0, 1⟩
  else ⟨.error .turkovNoMethod, 0, 0⟩

/-! ## Cloud device-state payload decoding (`get_device_state`) -/

def isWs (c : Char) : Bool :=
  c = ' ' || c = '\n' || c = '\t' || c = '\r'

def skipWs (cs : List Char) : List Char := cs.dropWhile isWs

/-- JSON string literal body (after the opening quote), with the common
escapes; fuel-bounded. -/
def parseStringLit : Nat → List Char → Option (String × List Char)
  | 0, _ => none
  | _ + 1, [] => none
  | n + 1, c :: rest =>
    if c = '"' then some ("", rest)
    else if c = '\\' then
      match rest with
      | e :: rest2 =>
        let ec? : Option Char :=
          if e = '"' then some '"'
          else if e = '\\' then some '\\'
          else if e = '/' then some '/'
          else if e = 'n' then some '\n'
          else if e = 't' then some '\t'
          else none
        match ec? with
        | some ec => (parseStringLit n rest2).map (fun p => (String.mk (ec :: p.1.data), p.2))
        | none => none
      | [] => none
    else (parseStringLit n rest).map (fun p => (String.mk (c :: p.1.data), p.2))

/-- JSON number: integer unless a fractional part is present. -/
def parseNumber (cs : List Char) : Option (JVal × List Char) :=
  let (neg, cs1) :=
    match cs with
    | '-' :: rest => (true, rest)
    | _ => (false, cs)
  let (ds, cs2) := takeDigits cs1
  if ds.isEmpty then none
  else
    match cs2 with
    | '.' :: rest =>
      let (fs, cs3) := takeDigits rest
      if fs.isEmpty then none
      else
        let mag : ℚ := (natOfDigits ds : ℚ) + (natOfDigits fs : ℚ) / ((10 : ℚ) ^ fs.length)
        some (.float (if neg then -mag else mag), cs3)
    | _ =>
      let v : ℤ := (natOfDigits ds : ℤ)
      some (.int (if neg then -v else v), cs2)

mutual

/-- Fuel-bounded JSON value parser (the model of `json.loads`). -/
def jParseVal : Nat → List Char → Option (JVal × List Char)
  | 0, _ => none
  | n + 1, cs =>
    match skipWs cs with
    | [] => none
    | c :: rest =>
      if c = 'n' then
        match rest with
        | 'u' :: 'l' :: 'l' :: r => some (.null, r)
        | _ => none
      else if c = 't' then
        match rest with
        | 'r' :: 'u' :: 'e' :: r => some (.bool true, r)
        | _ => none
      else if c = 'f' then
        match rest with
        | 'a' :: 'l' :: 's' :: 'e' :: r => some (.bool false, r)
        | _ => none
      else if c = '"' then
        (parseStringLit n rest).map (fun p => (.str p.1, p.2))
      else if c = '[' then
        match skipWs rest with
        | ']' :: r => some (.arr [], r)
        | cs2 => (jParseItems n cs2).map (fun p => (.arr p.1, p.2))
      else if c = '\x7b' then
        match skipWs rest with
        | '\x7d' :: r => some (.obj [], r)
        | cs2 => (jParseFields n cs2).map (fun p => (.obj p.1, p.2))
      else
        parseNumber (c :: rest)

def jParseItems : Nat → List Char → Option (List JVal × List Char)
  | 0, _ => none
  | n + 1, cs =>
    match jParseVal n cs with
    | none => none
    | some (v, r) =>
      match skipWs r with
      | ',' :: r2 => (jParseItems n r2).map (fun p => (v :: p.1, p.2))
      | ']' :: r2 => some ([v], r2)
      | _ => none

def jParseFields : Nat → List Char → Option (List (String × JVal) × List Char)
  | 0, _ => none
  | n + 1, cs =>
    match skipWs cs with
    | '"' :: r =>
      match parseStringLit n r with
      | none => none
      | some (k, r2) =>
        match skipWs r2 with
        | ':' :: r3 =>
          match jParseVal n r3 with
          | none => none
          | some (v, r4) =>
            match skipWs r4 with
            | ',' :: r5 => (jParseFields n r5).map (fun p => ((k, v) :: p.1, p.2))
            | '\x7d' :: r5 => some ([(k, v)], r5)
            | _ => none
        | _ => none
    | _ => none

end

/-- `json.loads` on a string: a full parse with no trailing garbage. -/
def loads (s : String) : Option JVal :=
  match jParseVal (s.length + 2) s.data with
  | some (v, rest) => if (skipWs rest).isEmpty then some v else none
  | none => none

/-- The error classes raised while decoding the double-encoded cloud
device-state payload. -/
inductive GdsErr where
  | improperFormat
  | missingData
  | improperEncoding
  | typeError
deriving DecidableEq

/-- The payload-processing block of `TurkovAPI.get_device_state`: the body
must be a JSON array; its last element is decoded again by `json.loads`
(a non-string element makes `loads` raise `TypeError`); the inner value
must be an object. -/
def decodeDeviceState (payload : JVal) : Except GdsErr JVal :=
  match payload with
  | .arr items =>
    match items.getLast? with
    | none => .error .missingData
    | some lastItem =>
      match lastItem with
      | .str s =>
        match loads s with
        | none => .error .improperEncoding
        | some inner =>
          match inner with
          | .obj _ => .ok inner
          | _ => .error .improperFormat
      | _ => .error .typeError
  | _ => .error .improperFormat

/-- `TurkovAPI.get_device_state` after the request: a 304 on a non-forced
call returns `None`; otherwise the body is decoded. -/
def get_device_state (force : Bool) (status : Nat) (payload : JVal) :
    Except GdsErr (Option JVal) :=
  if !force && status == 304 then .ok none
  else (decodeDeviceState payload).map some

/-! ## `TurkovDevice.toggle` -/

/-- `TurkovDevice.toggle`: with no argument the stored `is_on` value
selects the command; the pair is the `set_value` key/value dispatched by
`turn_on` / `turn_off`. -/
def toggle (turn_on : Option JVal) (is_on : JVal) : String × String :=
  let t : JVal :=
    match turn_on with
    | none => is_on
    | some v => v
  if pyTruthy t then ("on", "true") else ("on", "false")

/-! ## Instances and concrete inputs used by the proofs -/

instance : DecidableEq (Except PyExc Unit) :=
  fun a b =>
    match a, b with
    | .ok (), .ok () => isTrue rfl
    | .error x, .error y =>
      if h : x = y then isTrue (by rw [h]) else isFalse (fun hc => h (by cases hc; rfl))
    | .ok _, .error _ => isFalse (fun hc => by cases hc)
    | .error _, .ok _ => isFalse (fun hc => by cases hc)

deriving instance Fintype for PyExc

deriving instance Fintype for CallRes

deriving instance Fintype for AuthCtx

/-- A well-formed authentication response body. -/
def authRespOk : JVal :=
  .obj [("accessToken", .str "a"), ("accessTokenExpiresAt", .int 100),
        ("refreshToken", .str "r"), ("refreshTokenExpiresAt", .int 200)]

/-- An authentication response whose access token is the empty string while
the refresh token is present and both expiries are in the future. -/
def authRespEmptyAccess : JVal :=
  .obj [("accessToken", .str ""), ("accessTokenExpiresAt", .int 100),
        ("refreshToken", .str "r"), ("refreshTokenExpiresAt", .int 100)]

/-- A session holding no tokens. -/
def tokSt0 : TokState := ⟨.null, none, .null, none⟩

/-- A session holding tokens that expire exactly 60 seconds from `now = 0`. -/
def tokStBoundary : TokState := ⟨.str "t", some 60, .str "r", some 60⟩

/-- A session with pre-existing token data. -/
def tokStPrior : TokState := ⟨.str "olda", some 5, .str "oldr", some 9⟩

/-- A small decoded state payload: the device reports being on and an
outdoor temperature of 21.5 degrees in wire tenths. -/
def dW : Payload := [("on", JVal.bool true), ("out_temp", JVal.int 215)]

/-- The all-`None` attribute state of a freshly constructed device. -/
def st0 : AttrState := fun _ => JVal.null

/-- The attribute state expected after reconciling `dW` against `st0`. -/
def stW : AttrState :=
  setAttr (setAttr st0 "is_on" (JVal.bool true)) "outdoor_temperature"
    (JVal.float (((215 : ℤ) : ℚ) / 10))

/-- The change set expected from reconciling `dW` against `st0`. -/
def chW : Finset String := insert "outdoor_temperature" (insert "is_on" (∅ : Finset String))

/-- A payload carrying a custom image identifier. -/
def dImg : Payload := [("image", JVal.str "img9")]

/-- An attribute state already holding an image URL. -/
def stImg : AttrState := fun a => if a = "image_url" then JVal.str "old" else JVal.null

/-! ## Generic facts about the Python value model -/

mutual

theorem pyEq_refl : ∀ v : JVal, pyEq v v = true
  | .null => rfl
  | .bool b => by cases b <;> rfl
  | .int n => by show (n == n) = true; simp
  | .float q => by show (q == q) = true; simp
  | .str s => by show (s == s) = true; simp
  | .arr items => pyEqList_refl items
  | .obj fields => pyEqFields_refl fields

theorem pyEqList_refl : ∀ l : List JVal, pyEqList l l = true
  | [] => rfl
  | v :: tl => by
      show (pyEq v v && pyEqList tl tl) = true
      rw [pyEq_refl v, pyEqList_refl tl]
      rfl

theorem pyEqFields_refl : ∀ l : List (String × JVal), pyEqFields l l = true
  | [] => rfl
  | (k, v) :: tl => by
      show ((k == k) && pyEq v v && pyEqFields tl tl) = true
      rw [pyEq_refl v, pyEqFields_refl tl]
      simp

end

/-! ## General lemmas about the token freshness checks -/

theorem access_needs_update_iff (st : TokState) (now : ℚ) :
    access_token_needs_update st now = true ↔
      pyTruthy st.accessToken = false ∨ st.accessTokenExpiresAt = none ∨
        ∃ e, st.accessTokenExpiresAt = some e ∧ (e : ℚ) - 60 < now := by
  unfold access_token_needs_update
  cases ht : pyTruthy st.accessToken with
  | false => simp [ht]
  | true =>
    cases he : st.accessTokenExpiresAt with
    | none => simp [ht, he]
    | some e => simp [ht, he]

theorem refresh_needs_update_iff (st : TokState) (now : ℚ) :
    refresh_token_needs_update st now = true ↔
      pyTruthy st.refreshToken = false ∨ st.refreshTokenExpiresAt = none ∨
        ∃ e, st.refreshTokenExpiresAt = some e ∧ (e : ℚ) - 60 < now := by
  unfold refresh_token_needs_update
  cases ht : pyTruthy st.refreshToken with
  | false => simp [ht]
  | true =>
    cases he : st.refreshTokenExpiresAt with
    | none => simp [ht, he]
    | some e => simp [ht, he]

/-! ## General lemma about `_process_auth_request` acceptance -/

theorem process_auth_snd_none_iff (now : ℚ) (st : TokState) (data : JVal)
    (aTok rTok : JVal) (aExp rExp : ℤ)
    (hx : extractAuthFields data = .ok (aTok, aExp, rTok, rExp)) :
    ((process_auth_request now st (.ok data)).2 = none ↔
      ((pyTruthy aTok || pyTruthy rTok) = true ∧ now ≤ (aExp : ℚ) ∧ now ≤ (rExp : ℚ))) := by
  simp only [process_auth_request, hx]
  split_ifs with h1 h2 h3
  · simp only [Bool.not_eq_true', Bool.not_eq_true] at h1
    simp [h1]
  · exact iff_of_false (by simp) (fun hc => absurd h2 (not_lt.mpr hc.2.1))
  · exact iff_of_false (by simp) (fun hc => absurd h3 (not_lt.mpr hc.2.2))
  · refine iff_of_true rfl ⟨?_, not_lt.mp h2, not_lt.mp h3⟩
    revert h1
    cases (pyTruthy aTok || pyTruthy rTok) <;> simp

/-! ## C10: parameterless `toggle` follows the stored state -/

/-- C10: `toggle()` with no argument dispatches the turn-on command
(`set_value("on", "true")`) exactly when the stored `is_on` value is
truthy, and the turn-off command otherwise — the command matches the
current state instead of negating it, so a parameterless toggle never
flips the state. -/
theorem toggle_without_argument_matches_is_on (is_on : JVal) :
    (toggle none is_on = ("on", "true") ↔ pyTruthy is_on = true) ∧
    (toggle none is_on = ("on", "false") ↔ pyTruthy is_on = false) := by
  cases h : pyTruthy is_on <;> simp [toggle, h]

/-! ## C4: token freshness checks -/

/-- C4 counterexample: at the exact boundary instant
`expiry - 60 = now` (token `"t"`, expiry `60`, `now = 0`) both
`needs_update` properties are `false`, although the claim requires them to
be true whenever `expiry - 60 ≤ now`: the code compares with strict `<`. -/
theorem token_needs_update_boundary_counterexample :
    access_token_needs_update tokStBoundary 0 = false ∧
    refresh_token_needs_update tokStBoundary 0 = false ∧
    tokStBoundary.accessTokenExpiresAt = some 60 ∧
    ((60 : ℚ) - 60 ≤ (0 : ℚ)) ∧
    pyTruthy tokStBoundary.accessToken = true := by
  refine ⟨?_, ?_, rfl, by norm_num, rfl⟩
  · rw [Bool.eq_false_iff]
    intro hu
    rcases (access_needs_update_iff tokStBoundary 0).mp hu with h | h | ⟨e, he, hlt⟩
    · simp [show pyTruthy tokStBoundary.accessToken = true from rfl] at h
    · exact Option.noConfusion h
    · rw [show tokStBoundary.accessTokenExpiresAt = some 60 from rfl] at he
      cases he
      norm_num at hlt
  · rw [Bool.eq_false_iff]
    intro hu
    rcases (refresh_needs_update_iff tokStBoundary 0).mp hu with h | h | ⟨e, he, hlt⟩
    · simp [show pyTruthy tokStBoundary.refreshToken = true from rfl] at h
    · exact Option.noConfusion h
    · rw [show tokStBoundary.refreshTokenExpiresAt = some 60 from rfl] at he
      cases he
      norm_num at hlt

/-- C4 amended: `access_token_needs_update` (and likewise
`refresh_token_needs_update`) is true iff no token is stored, or no expiry
is stored, or `expiry - 60 < now` strictly — at the boundary instant
`expiry - 60 = now` it is false. -/
theorem token_needs_update_characterization (st : TokState) (now : ℚ) :
    (access_token_needs_update st now = true ↔
      pyTruthy st.accessToken = false ∨ st.accessTokenExpiresAt = none ∨
        ∃ e, st.accessTokenExpiresAt = some e ∧ (e : ℚ) - 60 < now) ∧
    (refresh_token_needs_update st now = true ↔
      pyTruthy st.refreshToken = false ∨ st.refreshTokenExpiresAt = none ∨
        ∃ e, st.refreshTokenExpiresAt = some e ∧ (e : ℚ) - 60 < now) :=
  ⟨access_needs_update_iff st now, refresh_needs_update_iff st now⟩

/-! ## C8: failed authentication exchanges leave token fields intact -/

/-- C8: whenever `_process_auth_request` raises (transport failure,
malformed body, missing fields, failed validation), all four token fields
keep their prior values — assignments happen only after the entire
response has been validated. -/
theorem process_auth_request_failure_preserves_tokens
    (now : ℚ) (st : TokState) (resp : Except Unit JVal) (e : String)
    (h : (process_auth_request now st resp).2 = some e) :
    (process_auth_request now st resp).1 = st := by
  cases resp with
  | error u => rfl
  | ok data =>
    rcases hx : extractAuthFields data with msg | ⟨aTok, aExp, rTok, rExp⟩
    · simp [process_auth_request, hx]
    · simp only [process_auth_request, hx] at h ⊢
      split_ifs at h ⊢ <;> simp_all

/-- Witness for C8: a transport failure against a session with stored
tokens leaves the stored tokens unchanged. -/
theorem process_auth_request_failure_preserves_tokens_witness :
    (process_auth_request 0 tokStPrior (.error ())).2 = some "Server returned bad response" ∧
    (process_auth_request 0 tokStPrior (.error ())).1 = tokStPrior :=
  ⟨rfl, process_auth_request_failure_preserves_tokens 0 tokStPrior (.error ())
    "Server returned bad response" rfl⟩

/-! ## C3: validation of the authentication exchange -/

/-- C3 counterexample: a response whose access token is the empty string
(absent) but whose refresh token is present and whose expiries are in the
future is ACCEPTED by `_process_auth_request` — the source guard is
`not (access_token or refresh_token)`, so a single absent token does not
reject the exchange, contradicting the claim that each absence alone
suffices to reject. -/
theorem process_auth_request_empty_access_token_counterexample :
    (process_auth_request 0 tokSt0 (.ok authRespEmptyAccess)).2 = none ∧
    pyTruthy (JVal.str "") = false := by
  refine ⟨?_, rfl⟩
  rw [process_auth_snd_none_iff 0 tokSt0 authRespEmptyAccess (.str "") (.str "r") 100 100 rfl]
  refine ⟨rfl, by norm_num, by norm_num⟩

/-- C3 amended: for a response from which all four fields extract, the
exchange is accepted iff the access token OR the refresh token is truthy
(only both being absent rejects), and neither expiry is strictly in the
past (`expiry < now` rejects; `expiry = now` is accepted). -/
theorem process_auth_request_acceptance_iff (now : ℚ) (st : TokState) (data : JVal)
    (aTok rTok : JVal) (aExp rExp : ℤ)
    (hx : extractAuthFields data = .ok (aTok, aExp, rTok, rExp)) :
    ((process_auth_request now st (.ok data)).2 = none ↔
      ((pyTruthy aTok || pyTruthy rTok) = true ∧ now ≤ (aExp : ℚ) ∧ now ≤ (rExp : ℚ))) :=
  process_auth_snd_none_iff now st data aTok rTok aExp rExp hx

/-- Witness for C3 amended: a fully valid response is accepted. -/
theorem process_auth_request_acceptance_iff_witness :
    extractAuthFields authRespOk = .ok (.str "a", 100, .str "r", 200) ∧
    ((process_auth_request 0 tokSt0 (.ok authRespOk)).2 = none ↔
      ((pyTruthy (JVal.str "a") || pyTruthy (JVal.str "r")) = true ∧
        (0 : ℚ) ≤ ((100 : ℤ) : ℚ) ∧ (0 : ℚ) ≤ ((200 : ℤ) : ℚ))) :=
  ⟨rfl, process_auth_request_acceptance_iff 0 tokSt0 authRespOk (.str "a") (.str "r") 100 200 rfl⟩

/-! ## C2: the bounded re-authentication wrapper -/

/-- C2 counterexample: with authentication handling enabled, no
preliminary attempt, a first failure with HTTP 403 and a retry that again
fails with HTTP 403, the decorator performs one `authenticate()` and one
retry but the retry's HTTP exception propagates unmodified — the caller
sees `HTTPForbidden`, not a `TurkovAPIAuthenticationError`, contradicting
"if the retry fails again ... an AuthenticationError is surfaced". -/
theorem handle_preliminary_auth_retry_counterexample :
    (handle_preliminary_auth ⟨true, false, true, .exc .httpForbidden, .exc .httpForbidden⟩).result
      = .error .httpForbidden ∧
    (handle_preliminary_auth ⟨true, false, true, .exc .httpForbidden, .exc .httpForbidden⟩).authCalls = 1 ∧
    (handle_preliminary_auth ⟨true, false, true, .exc .httpForbidden, .exc .httpForbidden⟩).fnCalls = 2 ∧
    PyExc.httpForbidden ≠ PyExc.authError := by
  refine ⟨rfl, rfl, rfl, by decide⟩

set_option synthInstance.maxSize 2000 in
set_option maxRecDepth 40000 in
/-- C2 amended: with authentication handling enabled and a succeeding
`authenticate()`: a first authorization-class failure with no preliminary
attempt triggers exactly one `authenticate()` and exactly one retry, and
the retry's own outcome then propagates as-is (a
`TurkovAPIAuthenticationError` surfaces as such, but a retry failing with
HTTP 401/403 propagates that HTTP exception unwrapped); if a preliminary
attempt was already made, an AuthenticationError is surfaced with no
retry; in every case at most one `authenticate()` and at most two
invocations of the wrapped call occur. -/
theorem handle_preliminary_auth_bounded :
    ∀ c : AuthCtx, c.handle_authentication = true → c.auth_ok = true →
    (((handle_preliminary_auth c).fnCalls ≤ 2 ∧ (handle_preliminary_auth c).authCalls ≤ 1) ∧
    (∀ e, c.needs_update = false → c.fn1 = CallRes.exc e → isAuthClass e = true →
      (handle_preliminary_auth c).authCalls = 1 ∧ (handle_preliminary_auth c).fnCalls = 2 ∧
      (handle_preliminary_auth c).result =
        (match c.fn2 with
         | CallRes.ok => Except.ok ()
         | CallRes.exc e2 => Except.error e2)) ∧
    (∀ e, c.needs_update = true → c.fn1 = CallRes.exc e → isAuthClass e = true →
      (handle_preliminary_auth c).result = Except.error PyExc.authError ∧
      (handle_preliminary_auth c).fnCalls = 1 ∧ (handle_preliminary_auth c).authCalls = 1)) := by
  decide

/-! ## C5: device-list synchronisation -/

theorem updateDevice_keys (reg : Registry) (i : String) (d : TurkovDeviceModel) :
    (updateDevice reg i d).map Prod.fst = reg.map Prod.fst := by
  induction reg with
  | nil => rfl
  | cons p tl ih =>
    simp only [updateDevice, List.map_cons] at ih ⊢
    by_cases h : p.1 = i <;> simp [h, ih]

theorem removeDevice_keys (reg : Registry) (i : String) :
    (removeDevice reg i).map Prod.fst = (reg.map Prod.fst).filter (fun k => k != i) := by
  induction reg with
  | nil => rfl
  | cons p tl ih =>
    simp only [removeDevice] at ih ⊢
    by_cases h : p.1 = i <;> simp [List.filter_cons, h, ih]

theorem registry_lookup_none_iff (reg : Registry) (i : String) :
    reg.lookup i = none ↔ i ∉ reg.map Prod.fst := by
  induction reg with
  | nil => simp
  | cons p tl ih =>
    by_cases h : i = p.1
    · simp [List.lookup, h]
    · simp only [List.lookup, List.map_cons, List.mem_cons]
      rw [show (i == p.1) = false by simp [h]]
      simp [ih, h]

theorem mem_goodIds (entries : List DeviceEntry) (i : String) :
    i ∈ goodIds entries ↔ ∃ e ∈ entries, e.id_ = some i ∧ i ≠ "" := by
  simp only [goodIds, List.mem_filterMap]
  constructor
  · rintro ⟨e, he, hf⟩
    cases hid : e.id_ with
    | none => rw [hid] at hf; simp at hf
    | some j =>
      rw [hid] at hf
      by_cases hj : j = ""
      · simp [hj] at hf
      · simp [hj] at hf
        exact ⟨e, he, by rw [hid, hf], by rw [← hf]; exact hj⟩
  · rintro ⟨e, he, hid, hne⟩
    exact ⟨e, he, by simp [hid, hne]⟩

/-- Invariant of the device-entry loop: keys stay unique, the leftover set
stays inside the keys, the keys grow by exactly the good ids processed,
and the leftover set shrinks by exactly the good ids processed. -/
theorem processDeviceEntry_fold_spec :
    ∀ (entries : List DeviceEntry) (reg : Registry) (left : List String),
    (reg.map Prod.fst).Nodup → left.Nodup → (∀ i ∈ left, i ∈ reg.map Prod.fst) →
    (((entries.foldl processDeviceEntry (reg, left)).1.map Prod.fst).Nodup ∧
     (entries.foldl processDeviceEntry (reg, left)).2.Nodup ∧
     (∀ i, i ∈ (entries.foldl processDeviceEntry (reg, left)).1.map Prod.fst ↔
        i ∈ reg.map Prod.fst ∨ i ∈ goodIds entries) ∧
     (∀ i, i ∈ (entries.foldl processDeviceEntry (reg, left)).2 ↔
        i ∈ left ∧ i ∉ goodIds entries))
  | [], reg, left, hreg, hleft, hsub => by
    refine ⟨hreg, hleft, ?_, ?_⟩
    · intro i; simp [goodIds]
    · intro i; simp [goodIds]
  | e :: es, reg, left, hreg, hleft, hsub => by
    rcases hid : e.id_ with _ | i
    · have ih := processDeviceEntry_fold_spec es reg left hreg hleft hsub
      simp only [List.foldl_cons, processDeviceEntry, hid]
      have hg : goodIds (e :: es) = goodIds es := by simp [goodIds, hid]
      rw [hg]
      exact ih
    · by_cases hemp : i = ""
      · have ih := processDeviceEntry_fold_spec es reg left hreg hleft hsub
        simp only [List.foldl_cons, processDeviceEntry, hid, if_pos hemp]
        have hg : goodIds (e :: es) = goodIds es := by simp [goodIds, hid, hemp]
        rw [hg]
        exact ih
      · have hg : goodIds (e :: es) = i :: goodIds es := by
          simp [goodIds, hid, hemp]
        rcases hlk : reg.lookup i with _ | dev
        · -- new device: appended at the end of the registry
          have hnotmem : i ∉ reg.map Prod.fst := (registry_lookup_none_iff reg i).mp hlk
          have hreg2 : ((reg ++ [(i, applyDeviceFields e (newTurkovDevice i))]).map
              Prod.fst).Nodup := by
            simp [List.nodup_append, hreg, hnotmem]
          have hsub2 : ∀ j ∈ left, j ∈ (reg ++ [(i, applyDeviceFields e
              (newTurkovDevice i))]).map Prod.fst := by
            intro j hj
            simp only [List.map_append, List.mem_append]
            exact Or.inl (hsub j hj)
          have ih := processDeviceEntry_fold_spec es
            (reg ++ [(i, applyDeviceFields e (newTurkovDevice i))]) left hreg2 hleft hsub2
          simp only [List.foldl_cons, processDeviceEntry, hid, if_neg hemp, hlk] at ih ⊢
          rw [hg]
          refine ⟨ih.1, ih.2.1, ?_, ?_⟩
          · intro j
            rw [ih.2.2.1 j]
            simp only [List.map_append, List.mem_append, List.map_cons, List.map_nil,
              List.mem_cons, List.mem_singleton, List.not_mem_nil, or_false,
              List.mem_singleton]
            tauto
          · intro j
            rw [ih.2.2.2 j]
            simp only [List.mem_cons]
            have hne : j ∈ left → ¬ j = i := fun hj hji => hnotmem (hji ▸ hsub j hj)
            tauto
        · -- existing device: updated in place, discarded from the leftover set
          have hmem : i ∈ reg.map Prod.fst := by
            by_contra hc
            rw [← registry_lookup_none_iff reg i] at hc
            rw [hlk] at hc
            exact Option.noConfusion hc
          have hreg2 : ((updateDevice reg i (applyDeviceFields e dev)).map Prod.fst).Nodup := by
            rw [updateDevice_keys]; exact hreg
          have hleft2 : (left.erase i).Nodup := hleft.erase i
          have hsub2 : ∀ j ∈ left.erase i,
              j ∈ (updateDevice reg i (applyDeviceFields e dev)).map Prod.fst := by
            intro j hj
            rw [updateDevice_keys]
            exact hsub j (List.mem_of_mem_erase hj)
          have ih := processDeviceEntry_fold_spec es
            (updateDevice reg i (applyDeviceFields e dev)) (left.erase i) hreg2 hleft2 hsub2
          simp only [List.foldl_cons, processDeviceEntry, hid, if_neg hemp, hlk] at ih ⊢
          rw [hg]
          refine ⟨ih.1, ih.2.1, ?_, ?_⟩
          · intro j
            rw [ih.2.2.1 j, updateDevice_keys]
            simp only [List.mem_cons]
            have hmm : j = i → j ∈ reg.map Prod.fst := fun h => h ▸ hmem
            tauto
          · intro j
            rw [ih.2.2.2 j, hleft.mem_erase_iff]
            simp only [List.mem_cons]
            tauto

/-- Removing a list of keys from the registry: keys stay unique and the
remaining keys are exactly those not removed. -/
theorem removeDevice_fold_spec :
    ∀ (ids : List String) (reg : Registry), (reg.map Prod.fst).Nodup →
    (((ids.foldl removeDevice reg).map Prod.fst).Nodup ∧
     (∀ i, i ∈ (ids.foldl removeDevice reg).map Prod.fst ↔
        i ∈ reg.map Prod.fst ∧ i ∉ ids))
  | [], reg, hreg => ⟨hreg, by intro i; simp⟩
  | j :: js, reg, hreg => by
    have hkeys := removeDevice_keys reg j
    have hreg2 : ((removeDevice reg j).map Prod.fst).Nodup := by
      rw [hkeys]; exact hreg.filter _
    have ih := removeDevice_fold_spec js (removeDevice reg j) hreg2
    simp only [List.foldl_cons]
    refine ⟨ih.1, ?_⟩
    intro i
    rw [ih.2 i, hkeys, List.mem_filter]
    simp only [List.mem_cons, bne_iff_ne, ne_eq]
    tauto

/-- C5: after a successful non-304 `update_user_data` sync, entries with a
missing or empty id are skipped without failing, and the registry's key
set equals exactly the set of non-empty ids reported in the response —
previously known ids absent from the response are removed, and the keys
stay duplicate-free, so repeating the sync creates no duplicate
devices. -/
theorem update_user_data_registry_sync (entries : List DeviceEntry) (reg : Registry)
    (hnd : (reg.map Prod.fst).Nodup) :
    ((update_user_data_devices entries reg).map Prod.fst).Nodup ∧
    (∀ i, i ∈ (update_user_data_devices entries reg).map Prod.fst ↔
      ∃ e ∈ entries, e.id_ = some i ∧ i ≠ "") := by
  have hP := processDeviceEntry_fold_spec entries reg (reg.map Prod.fst) hnd hnd
    (fun _ h => h)
  have hR := removeDevice_fold_spec (entries.foldl processDeviceEntry
    (reg, reg.map Prod.fst)).2 (entries.foldl processDeviceEntry (reg, reg.map Prod.fst)).1
    hP.1
  constructor
  · exact hR.1
  · intro i
    rw [show (update_user_data_devices entries reg).map Prod.fst =
        ((entries.foldl processDeviceEntry (reg, reg.map Prod.fst)).2.foldl removeDevice
          (entries.foldl processDeviceEntry (reg, reg.map Prod.fst)).1).map Prod.fst from rfl]
    rw [hR.2 i, hP.2.2.1 i, hP.2.2.2 i, ← mem_goodIds]
    by_cases hg : i ∈ goodIds entries
    · simp [hg]
    · simp [hg]

/-- Witness for C5: two known devices, a response reporting one of them
plus a new id, an id-less entry and an empty-id entry — afterwards the
keys are exactly the two good ids, with no duplicate. -/
theorem update_user_data_registry_sync_witness :
    (([("a", newTurkovDevice "a"), ("b", newTurkovDevice "b")] :
        Registry).map Prod.fst).Nodup ∧
    ((update_user_data_devices
        [⟨some "a", some (some "T"), none, none, none, none⟩,
         ⟨some "c", none, none, none, none, none⟩,
         ⟨none, none, none, none, none, none⟩,
         ⟨some "", none, none, none, none, none⟩]
        [("a", newTurkovDevice "a"), ("b", newTurkovDevice "b")]).map Prod.fst).Nodup ∧
    ("c" ∈ (update_user_data_devices
        [⟨some "a", some (some "T"), none, none, none, none⟩,
         ⟨some "c", none, none, none, none, none⟩,
         ⟨none, none, none, none, none, none⟩,
         ⟨some "", none, none, none, none, none⟩]
        [("a", newTurkovDevice "a"), ("b", newTurkovDevice "b")]).map Prod.fst ↔
      ∃ e ∈ ([⟨some "a", some (some "T"), none, none, none, none⟩,
         ⟨some "c", none, none, none, none, none⟩,
         ⟨none, none, none, none, none, none⟩,
         ⟨some "", none, none, none, none, none⟩] : List DeviceEntry),
        e.id_ = some "c" ∧ "c" ≠ "") ∧
    ("b" ∈ (update_user_data_devices
        [⟨some "a", some (some "T"), none, none, none, none⟩,
         ⟨some "c", none, none, none, none, none⟩,
         ⟨none, none, none, none, none, none⟩,
         ⟨some "", none, none, none, none, none⟩]
        [("a", newTurkovDevice "a"), ("b", newTurkovDevice "b")]).map Prod.fst ↔
      ∃ e ∈ ([⟨some "a", some (some "T"), none, none, none, none⟩,
         ⟨some "c", none, none, none, none, none⟩,
         ⟨none, none, none, none, none, none⟩,
         ⟨some "", none, none, none, none, none⟩] : List DeviceEntry),
        e.id_ = some "b" ∧ "b" ≠ "") := by
  have h := update_user_data_registry_sync
    [⟨some "a", some (some "T"), none, none, none, none⟩,
     ⟨some "c", none, none, none, none, none⟩,
     ⟨none, none, none, none, none, none⟩,
     ⟨some "", none, none, none, none, none⟩]
    [("a", newTurkovDevice "a"), ("b", newTurkovDevice "b")]
    (by simp)
  exact ⟨by simp, h.1, h.2 "c", h.2 "b"⟩

/-! ## C6: local-then-cloud dispatch in `get_state` -/

/-- C6: `get_state` attempts the local endpoint exactly when a truthy
local host is configured; on a caught local failure (transport/decode) it
makes exactly one cloud attempt iff the device also holds an API
reference, and with no API reference the local error propagates
unmodified; an uncaught local failure propagates without any cloud
attempt; with no host it goes straight to the cloud when an API reference
exists, and raises `TurkovAPIError` (no attempts) when neither is
available. -/
theorem get_state_local_cloud_fallback (c : GetStateCtx) :
    ((get_state c).localAttempts = if hostTruthy c.host then 1 else 0) ∧
    (∀ e, hostTruthy c.host = true → c.localResult = .error e → isLocalCaught e = true →
      ((get_state c).cloudAttempts = if c.hasApi then 1 else 0) ∧
      (c.hasApi = false → (get_state c).result = .error e)) ∧
    (∀ e, hostTruthy c.host = true → c.localResult = .error e → isLocalCaught e = false →
      (get_state c).result = .error e ∧ (get_state c).cloudAttempts = 0) ∧
    (hostTruthy c.host = false → c.hasApi = true →
      (get_state c).localAttempts = 0 ∧ (get_state c).cloudAttempts = 1) ∧
    (hostTruthy c.host = false → c.hasApi = false →
      (get_state c).result = .error .turkovNoMethod ∧ (get_state c).cloudAttempts = 0) := by
  obtain ⟨host, hasApi, lr, cr⟩ := c
  rcases lr with e0 | d <;> rcases cr with e2 | d2 <;>
    cases hh : hostTruthy host <;> cases hasApi <;>
      first
        | (simp_all [get_state]; done)
        | (cases hc : isLocalCaught e0 <;> simp_all [get_state])

/-- Witness for C6: a device with a local host, no API reference and a
failing local transport propagates the local error with no cloud
attempt. -/
theorem get_state_local_cloud_fallback_witness :
    hostTruthy (some "192.168.1.40") = true ∧
    isLocalCaught .clientError = true ∧
    (get_state ⟨some "192.168.1.40", false, .error .clientError, .ok none⟩).result
      = .error .clientError ∧
    (get_state ⟨some "192.168.1.40", false, .error .clientError, .ok none⟩).cloudAttempts = 0 ∧
    (get_state ⟨some "192.168.1.40", false, .error .clientError, .ok none⟩).localAttempts = 1 := by
  have h := get_state_local_cloud_fallback ⟨some "192.168.1.40", false, .error .clientError, .ok none⟩
  refine ⟨rfl, rfl, ?_, ?_, ?_⟩
  · exact (h.2.1 .clientError rfl rfl rfl).2 rfl
  · have h2 := (h.2.1 .clientError rfl rfl rfl).1
    simpa using h2
  · have h1 := h.1
    simpa [show hostTruthy (some "192.168.1.40") = true from rfl] using h1

/-! ## C7: shape of the double-encoded cloud device-state payload -/

theorem decodeDeviceState_ok_iff (payload : JVal) (r : JVal) :
    decodeDeviceState payload = .ok r ↔
      ∃ items s fields, payload = .arr items ∧ items.getLast? = some (.str s) ∧
        loads s = some (.obj fields) ∧ r = .obj fields := by
  cases payload with
  | null => simp [decodeDeviceState]
  | bool b => simp [decodeDeviceState]
  | int n => simp [decodeDeviceState]
  | float q => simp [decodeDeviceState]
  | str s => simp [decodeDeviceState]
  | obj fields => simp [decodeDeviceState]
  | arr items =>
    cases hl : items.getLast? with
    | none => simp [decodeDeviceState, hl]
    | some lastItem =>
      cases lastItem with
      | str s =>
        cases hload : loads s with
        | none => simp [decodeDeviceState, hl, hload]
        | some inner =>
          cases inner with
          | obj fs => simp [decodeDeviceState, hl, hload, eq_comm]
          | null => simp [decodeDeviceState, hl, hload]
          | bool b => simp [decodeDeviceState, hl, hload]
          | int n => simp [decodeDeviceState, hl, hload]
          | float q => simp [decodeDeviceState, hl, hload]
          | str s2 => simp [decodeDeviceState, hl, hload]
          | arr its => simp [decodeDeviceState, hl, hload]
      | null => simp [decodeDeviceState, hl]
      | bool b => simp [decodeDeviceState, hl]
      | int n => simp [decodeDeviceState, hl]
      | float q => simp [decodeDeviceState, hl]
      | arr its => simp [decodeDeviceState, hl]
      | obj fs => simp [decodeDeviceState, hl]

/-- C7: a forced `get_device_state` fetch decodes the payload via the
double-decoding stage, which accepts exactly the JSON arrays whose last
element is a JSON-encoded string decoding to an object, returns that
decoded object, and raises on every deviation (non-array, empty array,
non-string or undecodable last element, non-object inner value). -/
theorem get_device_state_payload_shape (status : Nat) (payload : JVal) :
    (get_device_state true status payload = (decodeDeviceState payload).map some) ∧
    (∀ r, decodeDeviceState payload = .ok r ↔
      ∃ items s fields, payload = .arr items ∧ items.getLast? = some (.str s) ∧
        loads s = some (.obj fields) ∧ r = .obj fields) ∧
    ((∃ err, decodeDeviceState payload = .error err) ↔
      ¬ ∃ items s fields, payload = .arr items ∧ items.getLast? = some (.str s) ∧
        loads s = some (.obj fields)) := by
  refine ⟨by simp [get_device_state], fun r => decodeDeviceState_ok_iff payload r, ?_⟩
  cases hd : decodeDeviceState payload with
  | ok v =>
    constructor
    · rintro ⟨err, herr⟩
      exact Except.noConfusion herr
    · intro hns
      obtain ⟨items, s, fields, h1, h2, h3, _⟩ := (decodeDeviceState_ok_iff payload v).mp hd
      exact absurd ⟨items, s, fields, h1, h2, h3⟩ hns
  | error e =>
    constructor
    · rintro - ⟨items, s, fields, h1, h2, h3⟩
      have := (decodeDeviceState_ok_iff payload (.obj fields)).mpr
        ⟨items, s, fields, h1, h2, h3, rfl⟩
      rw [hd] at this
      exact Except.noConfusion this
    · intro hns
      exact ⟨e, rfl⟩

/-- Witness for C2 amended: a first failure with `HTTPUnauthorized` and a
succeeding retry gives exactly one re-auth, two invocations, success. -/
theorem handle_preliminary_auth_bounded_witness :
    ((⟨true, false, true, .exc .httpUnauthorized, .ok⟩ : AuthCtx).handle_authentication = true) ∧
    ((⟨true, false, true, .exc .httpUnauthorized, .ok⟩ : AuthCtx).auth_ok = true) ∧
    (handle_preliminary_auth ⟨true, false, true, .exc .httpUnauthorized, .ok⟩).authCalls = 1 ∧
    (handle_preliminary_auth ⟨true, false, true, .exc .httpUnauthorized, .ok⟩).fnCalls = 2 ∧
    (handle_preliminary_auth ⟨true, false, true, .exc .httpUnauthorized, .ok⟩).result = .ok () := by
  have h := (handle_preliminary_auth_bounded ⟨true, false, true, .exc .httpUnauthorized, .ok⟩
    rfl rfl).2.1 .httpUnauthorized rfl rfl rfl
  exact ⟨rfl, rfl, h.1, h.2.1, h.2.2⟩

/-! ## C1 and C9: the reconciliation algorithm -/

theorem genericStep_skip (m : Bool) (d : Payload) (st : AttrState) (ch : Finset String)
    (attr key : String) :
    genericStep m d st ch (attr, key, Conv.skip) = .ok (st, ch) := by
  simp [genericStep]

theorem genericStep_shape (m : Bool) (d : Payload) (st : AttrState) (ch : Finset String)
    (e : MapEntry) (st2 : AttrState) (ch2 : Finset String)
    (h : genericStep m d st ch e = .ok (st2, ch2)) :
    (st2 = st ∧ ch2 = ch) ∨ ∃ v, st2 = setAttr st e.1 v ∧ ch2 = insert e.1 ch := by
  obtain ⟨attr, key, conv⟩ := e
  by_cases hskip : conv = Conv.skip
  · simp only [genericStep, if_pos hskip, Except.ok.injEq, Prod.mk.injEq] at h
    exact Or.inl ⟨h.1.symm, h.2.symm⟩
  · simp only [genericStep, if_neg hskip] at h
    split at h
    · split_ifs at h with hm hnull
      · simp only [Except.ok.injEq, Prod.mk.injEq] at h
        exact Or.inl ⟨h.1.symm, h.2.symm⟩
      · simp only [Except.ok.injEq, Prod.mk.injEq] at h
        exact Or.inr ⟨.null, h.1.symm, h.2.symm⟩
      · simp only [Except.ok.injEq, Prod.mk.injEq] at h
        exact Or.inl ⟨h.1.symm, h.2.symm⟩
    · split at h
      · exact absurd h (by simp)
      · split_ifs at h with hpy
        · simp only [Except.ok.injEq, Prod.mk.injEq] at h
          exact Or.inl ⟨h.1.symm, h.2.symm⟩
        · simp only [Except.ok.injEq, Prod.mk.injEq] at h
          exact Or.inr ⟨_, h.1.symm, h.2.symm⟩

theorem genericStep_other (m : Bool) (d : Payload) (st : AttrState) (ch : Finset String)
    (e : MapEntry) (st2 : AttrState) (ch2 : Finset String)
    (h : genericStep m d st ch e = .ok (st2, ch2)) (a : String) (hne : a ≠ e.1) :
    st2 a = st a ∧ (a ∈ ch2 ↔ a ∈ ch) := by
  rcases genericStep_shape m d st ch e st2 ch2 h with ⟨h1, h2⟩ | ⟨v, h1, h2⟩
  · subst h1; subst h2; exact ⟨rfl, Iff.rfl⟩
  · subst h1; subst h2
    constructor
    · simp [setAttr, hne]
    · simp [Finset.mem_insert, hne]

theorem genericPass_other (m : Bool) (d : Payload) :
    ∀ (es : List MapEntry) (st : AttrState) (ch : Finset String) (st' : AttrState)
      (ch' : Finset String) (a : String),
    genericPass m d es st ch = .ok (st', ch') → a ∉ es.map (fun e => e.1) →
    st' a = st a ∧ (a ∈ ch' ↔ a ∈ ch)
  | [], st, ch, st', ch', a, h, _ => by
    simp only [genericPass, Except.ok.injEq, Prod.mk.injEq] at h
    rw [← h.1, ← h.2]
    exact ⟨rfl, Iff.rfl⟩
  | e :: es, st, ch, st', ch', a, h, hmem => by
    simp only [genericPass] at h
    split at h
    · exact absurd h (by simp)
    · rename_i st2 ch2 heq
      simp only [List.map_cons, List.mem_cons, not_or] at hmem
      have h1 := genericStep_other m d st ch e st2 ch2 heq a hmem.1
      have h2 := genericPass_other m d es st2 ch2 st' ch' a h hmem.2
      exact ⟨h2.1.trans h1.1, h2.2.trans h1.2⟩

theorem genericStep_spec (m : Bool) (d : Payload) (st : AttrState) (ch : Finset String)
    (attr key : String) (conv : Conv) (st2 : AttrState) (ch2 : Finset String)
    (hc : conv ≠ .skip)
    (h : genericStep m d st ch (attr, key, conv) = .ok (st2, ch2)) :
    (candidate m d (attr, key, conv) = none ∧ st2 = st ∧ ch2 = ch) ∨
    (∃ w, candidate m d (attr, key, conv) = some w ∧
      ((pyEq w (st attr) = true ∧ st2 = st ∧ ch2 = ch) ∨
       (pyEq w (st attr) = false ∧ st2 = setAttr st attr w ∧ ch2 = insert attr ch))) := by
  simp only [genericStep, if_neg hc] at h
  simp only [candidate]
  split at h
  · rename_i hlk
    try simp only [hlk]
    split_ifs at h with hm hnull
    · simp only [Except.ok.injEq, Prod.mk.injEq] at h
      rw [if_pos hm]
      exact Or.inr ⟨.null, rfl, Or.inl ⟨hnull, h.1.symm, h.2.symm⟩⟩
    · simp only [Except.ok.injEq, Prod.mk.injEq] at h
      rw [if_pos hm]
      exact Or.inr ⟨.null, rfl, Or.inr ⟨Bool.eq_false_iff.mpr hnull, h.1.symm, h.2.symm⟩⟩
    · simp only [Except.ok.injEq, Prod.mk.injEq] at h
      rw [if_neg hm]
      exact Or.inl ⟨rfl, h.1.symm, h.2.symm⟩
  · rename_i raw hlk
    try simp only [hlk]
    split at h
    · exact absurd h (by simp)
    · rename_i v hcv
      try simp only [hcv]
      simp only [Except.toOption]
      split_ifs at h with hpy
      · simp only [Except.ok.injEq, Prod.mk.injEq] at h
        exact Or.inr ⟨v, rfl, Or.inl ⟨hpy, h.1.symm, h.2.symm⟩⟩
      · simp only [Except.ok.injEq, Prod.mk.injEq] at h
        exact Or.inr ⟨v, rfl, Or.inr ⟨Bool.eq_false_iff.mpr hpy, h.1.symm, h.2.symm⟩⟩

theorem genericPass_conv_ok (m : Bool) (d : Payload) :
    ∀ (es : List MapEntry) (st : AttrState) (ch : Finset String) (st' : AttrState)
      (ch' : Finset String),
    genericPass m d es st ch = .ok (st', ch') →
    ∀ e ∈ es, e.2.2 ≠ .skip → ∀ raw, d.lookup e.2.1 = some raw →
      ∃ v, applyConv e.2.2 raw = .ok v
  | [], _, _, _, _, _, e, he, _, _, _ => absurd he (List.not_mem_nil e)
  | e0 :: es, st, ch, st', ch', h, e, he, hc, raw, hlk => by
    simp only [genericPass] at h
    split at h
    · exact absurd h (by simp)
    · rename_i st2 ch2 heq
      rcases List.mem_cons.mp he with hhead | hes
      · subst hhead
        obtain ⟨attr, key, conv⟩ := e
        simp only at hc hlk
        simp only [genericStep, if_neg hc, hlk] at heq
        cases hcv : applyConv conv raw with
        | error err => simp [hcv] at heq
        | ok v => exact ⟨v, rfl⟩
      · exact genericPass_conv_ok m d es st2 ch2 st' ch' h e hes hc raw hlk

theorem genericPass_spec (m : Bool) (d : Payload) :
    ∀ (es : List MapEntry) (st : AttrState) (ch : Finset String) (st' : AttrState)
      (ch' : Finset String),
    (es.map (fun e => e.1)).Nodup →
    genericPass m d es st ch = .ok (st', ch') →
    ∀ e ∈ es,
      (e.2.2 = .skip → st' e.1 = st e.1 ∧ (e.1 ∈ ch' ↔ e.1 ∈ ch)) ∧
      (e.2.2 ≠ .skip →
        (e.1 ∈ ch' ↔ e.1 ∈ ch ∨ ∃ w, candidate m d e = some w ∧ pyEq w (st e.1) = false) ∧
        st' e.1 = (match candidate m d e with
          | some w => if pyEq w (st e.1) then st e.1 else w
          | none => st e.1))
  | [], _, _, _, _, _, _, e, he => absurd he (List.not_mem_nil e)
  | e0 :: es, st, ch, st', ch', hnd, h, e, he => by
    simp only [genericPass] at h
    split at h
    · exact absurd h (by simp)
    · rename_i st2 ch2 heq
      simp only [List.map_cons, List.nodup_cons] at hnd
      rcases List.mem_cons.mp he with hhead | hes
      · subst hhead
        have hrest : e.1 ∉ es.map (fun x => x.1) := hnd.1
        have hpres := genericPass_other m d es st2 ch2 st' ch' e.1 h hrest
        obtain ⟨attr, key, conv⟩ := e
        constructor
        · intro hskip
          simp only at hskip
          subst hskip
          rw [genericStep_skip] at heq
          simp only [Except.ok.injEq, Prod.mk.injEq] at heq
          constructor
          · rw [hpres.1, ← heq.1]
          · exact hpres.2.trans (by rw [heq.2])
        · intro hns
          simp only at hns
          have hspec := genericStep_spec m d st ch attr key conv st2 ch2 hns heq
          rcases hspec with ⟨hcand, h1, h2⟩ | ⟨w, hcand, hcase⟩
          · subst h1; subst h2
            constructor
            · rw [hpres.2, hcand]
              simp
            · rw [hpres.1, hcand]
          · rcases hcase with ⟨hpy, h1, h2⟩ | ⟨hpy, h1, h2⟩
            · subst h1; subst h2
              constructor
              · rw [hpres.2, hcand]
                simp [hpy]
              · rw [hpres.1, hcand]
                simp [hpy]
            · subst h1; subst h2
              constructor
              · rw [hpres.2, hcand]
                simp [Finset.mem_insert, hpy]
              · rw [hpres.1, hcand]
                simp [setAttr, hpy]
      · have hne : e.1 ≠ e0.1 := by
          intro hcontra
          exact hnd.1 (hcontra ▸ (List.mem_map.mpr ⟨e, hes, rfl⟩))
        have hother := genericStep_other m d st ch e0 st2 ch2 heq e.1 hne
        have ih := genericPass_spec m d es st2 ch2 st' ch' hnd.2 h e hes
        constructor
        · intro hskip
          obtain ⟨ha, hb⟩ := ih.1 hskip
          exact ⟨ha.trans hother.1, hb.trans hother.2⟩
        · intro hns
          obtain ⟨ha, hb⟩ := ih.2 hns
          rw [hother.1] at ha hb
          constructor
          · exact ha.trans (or_congr hother.2 Iff.rfl)
          · exact hb

theorem genericPass_fixpoint (m : Bool) (d : Payload) :
    ∀ (es : List MapEntry) (st : AttrState),
    (∀ e ∈ es, ∀ ch0, genericStep m d st ch0 e = .ok (st, ch0)) →
    ∀ ch, genericPass m d es st ch = .ok (st, ch)
  | [], _, _ => fun _ => rfl
  | e :: es, st, hsteps => fun ch => by
    simp only [genericPass]
    rw [hsteps e (List.mem_cons_self e es) ch]
    exact genericPass_fixpoint m d es st
      (fun e2 he2 => hsteps e2 (List.mem_cons_of_mem e he2)) ch

theorem mapping_names_nodup : (ATTRIBUTE_KEY_MAPPING.map (fun e => e.1)).Nodup := by
  decide

theorem mapping_nonskip_not_image :
    ∀ e ∈ ATTRIBUTE_KEY_MAPPING, e.2.2 ≠ Conv.skip → e.1 ≠ "image_url" := by
  decide

theorem image_entry_mem : ("image_url", "image", Conv.skip) ∈ ATTRIBUTE_KEY_MAPPING := by
  decide

theorem imageFire_self (m : Bool) (v : JVal) : imageFire m v v = false := by
  cases m <;> simp [imageFire, pyEq_refl]

/-- Case analysis on a successful `reconcile`: the generic pass succeeded
and the image step either fired or did not. -/
theorem reconcile_cases (m : Bool) (typ id? : Option String) (d : Payload)
    (st st' : AttrState) (ch : Finset String)
    (h : reconcile m typ id? d st = .ok (st', ch)) :
    ∃ st1 ch1, genericPass m d ATTRIBUTE_KEY_MAPPING st ∅ = .ok (st1, ch1) ∧
      ((imageFire m (st1 "image_url") (computeImage typ id? d) = true ∧
        st' = setAttr st1 "image_url" (computeImage typ id? d) ∧
        ch = insert "image_url" ch1) ∨
       (imageFire m (st1 "image_url") (computeImage typ id? d) = false ∧
        st' = st1 ∧ ch = ch1)) := by
  simp only [reconcile] at h
  split at h
  · exact absurd h (by simp)
  · rename_i st1 ch1 hg
    refine ⟨st1, ch1, hg, ?_⟩
    split_ifs at h with hfire
    · simp only [Except.ok.injEq, Prod.mk.injEq] at h
      exact Or.inl ⟨hfire, h.1.symm, h.2.symm⟩
    · simp only [Except.ok.injEq, Prod.mk.injEq] at h
      exact Or.inr ⟨Bool.eq_false_iff.mpr hfire, h.1.symm, h.2.symm⟩

/-- C1: for a successful `update_state` on a decoded payload, the change
set contains a generically decoded attribute (converter not `skip`) iff
its candidate value — the converted wire value, or `None` when the key is
absent under `mark_as_none_if_not_present` — differs (Python `!=`) from
the attribute's stored value; and an immediately repeated call with the
same payload and the resulting state returns the resulting state unchanged
with an empty change set. -/
theorem update_state_change_set_iff (m : Bool) (typ id? : Option String) (d : Payload)
    (st st' : AttrState) (ch : Finset String)
    (h : update_state m typ id? (some d) st = .ok (st', ch)) :
    (∀ attr key conv, (attr, key, conv) ∈ ATTRIBUTE_KEY_MAPPING → conv ≠ Conv.skip →
      (attr ∈ ch ↔ ∃ w, candidate m d (attr, key, conv) = some w ∧
        pyEq w (st attr) = false)) ∧
    update_state m typ id? (some d) st' = .ok (st', ∅) := by
  simp only [update_state] at h ⊢
  obtain ⟨st1, ch1, hg, hcase⟩ := reconcile_cases m typ id? d st st' ch h
  have hspec := genericPass_spec m d ATTRIBUTE_KEY_MAPPING st ∅ st1 ch1 mapping_names_nodup hg
  constructor
  · intro attr key conv hmem hns
    have hentry := (hspec (attr, key, conv) hmem).2 hns
    have hchar : attr ∈ ch1 ↔ ∃ w, candidate m d (attr, key, conv) = some w ∧
        pyEq w (st attr) = false := by
      rw [hentry.1]; simp
    have hne : attr ≠ "image_url" := mapping_nonskip_not_image (attr, key, conv) hmem hns
    rcases hcase with ⟨hfire, hst, hch⟩ | ⟨hfire, hst, hch⟩
    · rw [hch, Finset.mem_insert]
      constructor
      · rintro (hcontra | hmem1)
        · exact absurd hcontra hne
        · exact hchar.mp hmem1
      · intro hx
        exact Or.inr (hchar.mpr hx)
    · rw [hch]
      exact hchar
  · have hsteps : ∀ e ∈ ATTRIBUTE_KEY_MAPPING, ∀ ch0,
        genericStep m d st' ch0 e = .ok (st', ch0) := by
      intro e he ch0
      obtain ⟨attr, key, conv⟩ := e
      by_cases hskip : conv = Conv.skip
      · subst hskip
        exact genericStep_skip m d st' ch0 attr key
      · have hne : attr ≠ "image_url" :=
          mapping_nonskip_not_image (attr, key, conv) he hskip
        have hst'attr : st' attr = st1 attr := by
          rcases hcase with ⟨_, hst, _⟩ | ⟨_, hst, _⟩
          · rw [hst]; simp [setAttr, hne]
          · rw [hst]
        have hval := ((hspec (attr, key, conv) he).2 hskip).2
        simp only [genericStep, if_neg hskip]
        cases hlk : d.lookup key with
        | none =>
          by_cases hm : m = true
          · have hcand : candidate m d (attr, key, conv) = some .null := by
              simp [candidate, hlk, hm]
            have hval2 : st1 attr = if pyEq JVal.null (st attr) = true
                then st attr else JVal.null := by
              rw [hval, hcand]
            have hpynull : pyEq JVal.null (st' attr) = true := by
              rw [hst'attr, hval2]
              by_cases hpy : pyEq JVal.null (st attr) = true
              · rw [if_pos hpy]; exact hpy
              · rw [if_neg hpy]; exact pyEq_refl JVal.null
            simp [hlk, hm, hpynull]
          · have hm2 : m = false := Bool.eq_false_iff.mpr hm
            simp [hlk, hm2]
        | some raw =>
          obtain ⟨v, hcv⟩ := genericPass_conv_ok m d ATTRIBUTE_KEY_MAPPING st ∅ st1 ch1 hg
            (attr, key, conv) he hskip raw hlk
          have hcand : candidate m d (attr, key, conv) = some v := by
            simp [candidate, hlk, hcv, Except.toOption]
          have hval2 : st1 attr = if pyEq v (st attr) = true then st attr else v := by
            rw [hval, hcand]
          have hpyv : pyEq v (st' attr) = true := by
            rw [hst'attr, hval2]
            by_cases hpy : pyEq v (st attr) = true
            · rw [if_pos hpy]; exact hpy
            · rw [if_neg hpy]; exact pyEq_refl v
          simp [hlk, hcv, hpyv]
    have hfix := genericPass_fixpoint m d ATTRIBUTE_KEY_MAPPING st' hsteps ∅
    have hfire2 : imageFire m ( st' "image_url") (computeImage typ id? d) = false := by
      rcases hcase with ⟨hfire, hst, _⟩ | ⟨hfire, hst, _⟩
      · rw [hst]
        rw [show (setAttr st1 "image_url" (computeImage typ id? d)) "image_url" =
          computeImage typ id? d by simp [setAttr]]
        exact imageFire_self m (computeImage typ id? d)
      · rw [hst]
        exact hfire
    simp only [reconcile, hfix]
    rw [hfire2]
    simp

/-- Witness for C1: the device turns on and reports an outdoor temperature
of 215 tenths; the change set is exactly the two affected attributes, and
the repeated call changes nothing. -/
theorem update_state_change_set_iff_witness :
    update_state false none none (some dW) st0 = .ok (stW, chW) ∧
    (∀ attr key conv, (attr, key, conv) ∈ ATTRIBUTE_KEY_MAPPING → conv ≠ Conv.skip →
      (attr ∈ chW ↔ ∃ w, candidate false dW (attr, key, conv) = some w ∧
        pyEq w (st0 attr) = false)) ∧
    update_state false none none (some dW) stW = .ok (stW, ∅) := by
  have h : update_state false none none (some dW) st0 = .ok (stW, chW) := rfl
  exact ⟨h, (update_state_change_set_iff false none none dW st0 stW chW h).1,
    (update_state_change_set_iff false none none dW st0 stW chW h).2⟩

/-- C9 counterexample: with `mark_as_none_if_not_present = true`, a
payload carrying the custom image id `img9` yields a computed image URL
different from the stored `old`, yet `update_state` neither assigns it nor
records `image_url` in the change set — the mark-as-none branch only
assigns when the computed value is `None` and the stored one is not,
contradicting "assigned and recorded exactly when it differs ...
including when mark_as_none_if_not_present is true". -/
theorem update_state_image_url_marknone_counterexample :
    update_state true none (some "dev1") (some dImg) stImg = .ok (stImg, ∅) ∧
    pyEq (stImg "image_url") (computeImage none (some "dev1") dImg) = false := by
  exact ⟨rfl, rfl⟩

/-- C9 amended: the image-URL step shares the change-set logic with the
generic pass only when `mark_as_none_if_not_present` is false, where the
computed image URL is assigned and recorded iff it differs from the stored
one; when the flag is true the condition is instead "computed is None and
stored is not None", so a non-null computed URL differing from the stored
value is neither assigned nor recorded in that mode. -/
theorem update_state_image_url_rule (m : Bool) (typ id? : Option String) (d : Payload)
    (st st' : AttrState) (ch : Finset String)
    (h : update_state m typ id? (some d) st = .ok (st', ch)) :
    ("image_url" ∈ ch ↔ imageFire m (st "image_url") (computeImage typ id? d) = true) ∧
    ( st' "image_url" = (if imageFire m (st "image_url") (computeImage typ id? d)
      then computeImage typ id? d else st "image_url")) ∧
    (∀ stored img : JVal,
      imageFire false stored img = !pyEq stored img ∧
      imageFire true stored img = (isNull img && !isNull stored)) := by
  simp only [update_state] at h
  obtain ⟨st1, ch1, hg, hcase⟩ := reconcile_cases m typ id? d st st' ch h
  have hspec := genericPass_spec m d ATTRIBUTE_KEY_MAPPING st ∅ st1 ch1 mapping_names_nodup hg
  have himgskip := (hspec ("image_url", "image", Conv.skip) image_entry_mem).1 rfl
  have hst1 : st1 "image_url" = st "image_url" := himgskip.1
  have hch1 : "image_url" ∉ ch1 := by
    rw [himgskip.2]
    simp
  have main : ("image_url" ∈ ch ↔
      imageFire m (st "image_url") (computeImage typ id? d) = true) ∧
      ( st' "image_url" = (if imageFire m (st "image_url") (computeImage typ id? d)
        then computeImage typ id? d else st "image_url")) := by
    rcases hcase with ⟨hfire, hst, hch⟩ | ⟨hfire, hst, hch⟩
    · rw [hst1] at hfire
      refine ⟨?_, ?_⟩
      · rw [hch]
        simp [Finset.mem_insert, hfire]
      · rw [hst, hfire]
        simp [setAttr]
    · rw [hst1] at hfire
      refine ⟨?_, ?_⟩
      · rw [hch]
        simp [hfire, hch1]
      · rw [hst, hst1, hfire]
        simp
  exact ⟨main.1, main.2, fun stored img => ⟨rfl, rfl⟩⟩

/-- Witness for C9 amended: with the flag false, a freshly computed
custom image URL differing from the stored `None` is assigned and
recorded. -/
theorem update_state_image_url_rule_witness :
    update_state false none (some "dev1") (some dImg) st0
      = .ok (setAttr st0 "image_url" (computeImage none (some "dev1") dImg),
             insert "image_url" (∅ : Finset String)) ∧
    ("image_url" ∈ insert "image_url" (∅ : Finset String) ↔
      imageFire false (st0 "image_url") (computeImage none (some "dev1") dImg) = true) := by
  have h : update_state false none (some "dev1") (some dImg) st0
      = .ok (setAttr st0 "image_url" (computeImage none (some "dev1") dImg),
             insert "image_url" (∅ : Finset String)) := rfl
  exact ⟨h, (update_state_image_url_rule false none (some "dev1") dImg st0 _ _ h).1⟩

end Turkov
